import Mathlib

/-!
Shallow embedding of the vxPy / MappApp concurrency and data-plane core:
the edge-detect trigger engine (`vxpy/core/event.py`), the ring buffer
(`Routine.py`), the supervisor protocol state machine and recording control
(`mappapp/modules/controller.py`), the worker loop kernel and RPC dispatch
(`process/Process.py`), and the static protocol container
(`vxpy/core/protocol.py`).  Machine state is made explicit; clock reads
become explicit rational-valued samples; fallible code returns `Except`.
-/

namespace VxPy

/-! ## Process states (`Def.State`) -/

inductive PState where
  | NA
  | STOPPED
  | STARTING
  | IDLE
  | PREPARE_PROTOCOL
  | WAIT_FOR_PHASE
  | PREPARE_PHASE
  | READY
  | RUNNING
  | PHASE_END
  | PROTOCOL_END
deriving DecidableEq, Repr

/-! ## Attribute ring buffer (data plane) and the trigger engine

`vxpy/core/event.py` reads attributes through `self.attribute.read`;
the attribute class itself is not part of the sources at hand, so the
read operation is modelled from the spec. -/

/-- Modelled from the spec: an attribute is a named, monotonically-indexed
ring of fixed capacity; `writes` lists every value published so far (the
write index `w` is `writes.length`), `times` the parallel timestamps. -/
structure Attribute where
  capacity : ℕ
  writes : List ℤ
  times : List ℚ
deriving Repr

/-- Modelled from the spec (`vxpy.core.attribute.Attribute.read` is not in
the sources): `read(handle, from_idx)` returns the entries in
`[from_idx, w-1]`; if part of that window has been overwritten (or never
existed), the largest still-available suffix is returned. -/
def Attribute.read (a : Attribute) (from_idx : ℤ) : List ℤ × List ℚ × List ℤ :=
  let w : ℤ := a.writes.length
  let start : ℤ := max from_idx (max 0 (w - a.capacity))
  let cnt : ℕ := (w - start).toNat
  ((List.range cnt).map (fun k => start + k),
   (List.range cnt).map (fun k => a.times.getD (start + k).toNat 0),
   (List.range cnt).map (fun k => a.writes.getD (start + k).toNat 0))

/-- Mutable per-trigger state: `Trigger._last_read_idx` and `Trigger._active`. -/
structure TriggerState where
  lastReadIdx : ℤ
  active : Bool
deriving DecidableEq, Repr

/-- `RisingEdgeTrigger.condition` (`vxpy/core/event.py`): on fewer than two
samples return `(False, [])`; otherwise the mask is `np.diff(data) > 0`
appended with `False`; return `(True, mask)` when any entry is set,
`(False, [])` otherwise. -/
def risingEdgeCondition (data : List ℤ) : Bool × List Bool :=
  if data.length < 2 then (false, [])
  else
    let results := ((data.zip data.tail).map (fun p => decide (p.2 - p.1 > 0))) ++ [false]
    if results.any (fun b => b) then (true, results) else (false, [])

/-- One callback invocation `c(indices[i], times[i], data[i])`. -/
abbrev Invocation := ℤ × ℚ × ℤ

/-- `Trigger.process` (`vxpy/core/event.py`): if inactive, do nothing; read
all new entries from `_last_read_idx`; if none, return; otherwise set
`_last_read_idx := indices[-1] + 1` and only then evaluate the condition,
invoking every callback once per set mask position.  The condition is a
parameter (subclasses override it) and may fail; a failure propagates
after the index update, which the return value records as `.error`. -/
def Trigger.process (cond : List ℤ → Except Unit (Bool × List Bool))
    (a : Attribute) (st : TriggerState) :
    TriggerState × Except Unit (List Invocation) :=
  if ¬ st.active then (st, .ok []) else
  let r := a.read st.lastReadIdx
  let indices := r.1
  let times := r.2.1
  let data := r.2.2
  if indices.isEmpty then (st, .ok []) else
  let st' : TriggerState :=
    { st with lastReadIdx := (match indices.getLast? with
                              | some l => l + 1
                              | none => st.lastReadIdx) }
  match cond data with
  | .error e => (st', .error e)
  | .ok (result, instances) =>
    let fired : List Invocation :=
      if result then
        (((indices.zip (times.zip data)).zip instances).filterMap
          (fun x => if x.2 then some x.1 else none))
      else []
    (st', .ok fired)

/-- `Trigger.process` with the rising-edge condition installed (which never
raises). -/
def Trigger.processRising (a : Attribute) (st : TriggerState) :
    TriggerState × Except Unit (List Invocation) :=
  Trigger.process (fun d => .ok (risingEdgeCondition d)) a st

/-- The scenario attribute: bool attribute "gate" of capacity 100 carrying
the write sequence 0,0,1,1,0,1 (timestamps 0..5). -/
def gateAttribute : Attribute :=
  { capacity := 100, writes := [0, 0, 1, 1, 0, 1], times := [0, 1, 2, 3, 4, 5] }

/-- Trigger state right after construction (`_last_read_idx = index - 1 = -1`)
and activation. -/
def gateTriggerInit : TriggerState := { lastReadIdx := -1, active := true }

/-- The callback invocations of the scenario's single processing step. -/
def gateInvocations : List Invocation :=
  match (Trigger.processRising gateAttribute gateTriggerInit).2 with
  | .ok l => l
  | .error _ => []

/-- The attribute indices at which the scenario's callbacks fire. -/
def gateFiredIndices : List ℤ :=
  gateInvocations.map (fun inv => inv.1)

/-! ## Ring buffer consumer read (`Routine.py`, `RingBuffer.read`) -/

/-- Outcome of `RingBuffer.read`, by returned index set: `exn` is the raised
`Exception('Trying to read more records than stored in buffer...')`,
`noneRead` the `(None, None)` return (with a warning), `single`/`records`
the successful returns (data mirrors the indices). -/
inductive RBReadResult where
  | exn
  | noneRead
  | single (idx : ℤ)
  | records (idcs : List ℤ)
deriving DecidableEq, Repr

/-- `RingBuffer.read` (`Routine.py`): with `last_idx` given, `last` is
recomputed as `index - last_idx`; one record returns index `index - 1`;
more than one record first checks `last > length` and raises; otherwise
the indices `range(index - last, index)` are returned; `last < 1` warns
and returns `(None, None)`. -/
def RingBuffer.read (length index : ℕ) (last : ℤ) (last_idx : Option ℤ) :
    RBReadResult :=
  let l : ℤ := match last_idx with
               | some li => (index : ℤ) - li
               | none => last
  if l = 1 then .single ((index : ℤ) - 1)
  else if 1 < l then
    if (length : ℤ) < l then .exn
    else .records ((List.range l.toNat).map (fun k => (index : ℤ) - l + k))
  else .noneRead

end VxPy

namespace VxPy

/-! ## Claim theorems for the trigger engine and ring buffer -/

/-- Claim C1 (counterexample): over the write sequence 0,0,1,1,0,1 the
rising-edge trigger does not fire at attribute indices 2 and 5; index 2
(the first high sample of the first edge) receives no callback at all. -/
theorem C1_counterexample :
    (2 : ℤ) ∉ gateFiredIndices ∧ (5 : ℤ) ∉ gateFiredIndices ∧
      gateFiredIndices ≠ [2, 5] := by decide

/-- Claim C1 (amended): processing the RisingEdge trigger once over the
write sequence 0,0,1,1,0,1 invokes each registered callback exactly once
per rising edge, at attribute indices 1 and 4 — the index of the last low
sample before each edge, because the diff mask is padded with false at the
end — and at no other index; the callback receives the low value 0. -/
theorem C1_rising_edge_indices :
    gateInvocations = [(1, 1, 0), (4, 4, 0)] ∧ gateFiredIndices = [1, 4] := by
  decide

/-- Claim C2 (counterexample): a processing step that reads the single new
entry at index 2 of the sequence 0,0,1 obtains no result from the
condition (fewer than two samples: `(false, [])`), yet `last_read_idx`
advances from 2 to 3. -/
theorem C2_counterexample :
    (Attribute.read { capacity := 100, writes := [0, 0, 1], times := [0, 1, 2] } 2).2.2 = [1]
    ∧ risingEdgeCondition [1] = (false, [])
    ∧ (Trigger.processRising { capacity := 100, writes := [0, 0, 1], times := [0, 1, 2] }
         { lastReadIdx := 2, active := true }).1.lastReadIdx = 3 := by decide

/-- Claim C2 (amended): for every trigger processing step, `last_read_idx`
is set to one past the last read index immediately after any nonempty
read, before and regardless of the outcome of condition evaluation (even
when the condition fails or yields no result); it is unchanged exactly
when the trigger is inactive or the read returns no entries. -/
theorem C2_last_read_idx_advance
    (cond : List ℤ → Except Unit (Bool × List Bool)) (a : Attribute)
    (st : TriggerState) :
    (Trigger.process cond a st).1.lastReadIdx =
      if st.active = true ∧ (a.read st.lastReadIdx).1 ≠ [] then
        (match (a.read st.lastReadIdx).1.getLast? with
         | some l => l + 1
         | none => st.lastReadIdx)
      else st.lastReadIdx := by
  unfold Trigger.process
  by_cases ha : st.active
  · by_cases he : (a.read st.lastReadIdx).1.isEmpty
    · have h0 : (a.read st.lastReadIdx).1 = [] := List.isEmpty_iff.mp he
      simp [ha, he, h0]
    · have hne : (a.read st.lastReadIdx).1 ≠ [] := by
        simpa [List.isEmpty_iff] using he
      rcases hc : cond (a.read st.lastReadIdx).2.2 with e | ⟨res, inst⟩
      · simp [ha, he, hne, hc]
      · simp [ha, he, hne, hc]
  · simp [ha]

/-- Claim C4 (counterexample): a window read of `last_idx = 0` at write
index 5 on a buffer of capacity 3 reaches back more than the capacity; the
read fails with an exception instead of returning the largest available
suffix `[2, 3, 4]`. -/
theorem C4_counterexample :
    RingBuffer.read 3 5 1 (some 0) = .exn ∧
      RingBuffer.read 3 5 1 (some 0) ≠ .records [2, 3, 4] := by decide

/-- Claim C4 (amended): a multi-record ring-buffer read whose requested
window reaches back more than the buffer capacity behind the current write
index raises an exception ('Trying to read more records than stored in
buffer') — it neither warns nor returns a suffix; only a window within
capacity returns its indices. -/
theorem C4_read_overflow_raises (N idx : ℕ) (li : ℤ)
    (h1 : 1 < (idx : ℤ) - li) :
    (((N : ℤ) < (idx : ℤ) - li) →
        RingBuffer.read N idx 1 (some li) = .exn)
    ∧ (((idx : ℤ) - li ≤ (N : ℤ)) →
        RingBuffer.read N idx 1 (some li) =
          .records ((List.range ((idx : ℤ) - li).toNat).map
            (fun k => (idx : ℤ) - ((idx : ℤ) - li) + k))) := by
  constructor
  · intro hover
    unfold RingBuffer.read
    simp only []
    rw [if_neg (by omega), if_pos h1, if_pos hover]
  · intro hin
    unfold RingBuffer.read
    simp only []
    rw [if_neg (by omega), if_pos h1, if_neg (by omega)]

/-- Claim C4 (witness): the overflow branch at capacity 3, write index 5,
`last_idx = 0`. -/
theorem C4_read_overflow_raises_witness :
    (1 : ℤ) < (5 : ℤ) - 0 ∧ RingBuffer.read 3 5 1 (some 0) = .exn :=
  ⟨by norm_num, (C4_read_overflow_raises 3 5 0 (by norm_num)).1 (by norm_num)⟩

/-! ## Supervisor: recording control and protocol start
(`mappapp/modules/controller.py`) -/

/-- `ipc.Control.Recording`: the shared recording control block. -/
structure RecordingCtrl where
  enabled : Bool
  active : Bool
  folder : String
  useCompression : Bool
deriving DecidableEq, Repr

/-- Supervisor-visible state: the controller's own state cell, the other
workers' state cells, the recording control block, and the protocol
control block.  `warnings` counts `Logging.write(WARNING, ...)` calls. -/
structure CtrlState where
  selfState : PState
  cameraState : PState
  displayState : PState
  ioState : PState
  workerState : PState
  recording : RecordingCtrl
  protocolName : String
  phaseId : Option ℕ
  phaseStart : Option ℚ
  phaseStop : Option ℚ
  warnings : ℕ
deriving DecidableEq, Repr

/-- `Controller.start_recording`: refuse (`False`, warning) while a
recording is active; if recording is not enabled, warn that the session
will not be saved and return `True` without touching anything else;
otherwise fix the output folder (a fresh `rec_<timestamp>` name when none
is set), set the compression flags, set recording-active, return `True`.
`newFolder` stands for the generated timestamp folder name;
`compressionMethod` for the argument. -/
def Controller.start_recording (s : CtrlState)
    (compressionMethod : Option String) (newFolder : String) :
    CtrlState × Bool :=
  if s.recording.active then
    ({ s with warnings := s.warnings + 1 }, false)
  else if ¬ s.recording.enabled then
    ({ s with warnings := s.warnings + 1 }, true)
  else
    let folder := if s.recording.folder = "" then newFolder else s.recording.folder
    ({ s with recording :=
        { s.recording with
            folder := folder
            active := true
            useCompression := compressionMethod.isSome } }, true)

/-- `Controller.start_protocol`: the busy gate tests only the Display
worker's state; on refusal a warning is logged and the function falls off
with Python's implicit `None` (modelled as `none`).  Otherwise, when
recording is enabled and not active, `start_recording()` is attempted
(aborting on a falsy result); the phase info is cleared, the protocol
name set, and the controller enters PREPARE_PROTOCOL.  Every path returns
`None`. -/
def Controller.start_protocol (s : CtrlState) (protocol_path : String)
    (newFolder : String) : CtrlState × Option Bool :=
  if s.displayState ≠ PState.IDLE then
    ({ s with warnings := s.warnings + 1 }, none)
  else
    let step : CtrlState → CtrlState × Option Bool := fun s' =>
      ({ s' with
          phaseId := none
          phaseStart := none
          phaseStop := none
          protocolName := protocol_path
          selfState := PState.PREPARE_PROTOCOL }, none)
    if s.recording.enabled ∧ ¬ s.recording.active then
      let r := Controller.start_recording s none newFolder
      if r.2 then step r.1 else (r.1, none)
    else
      step s

/-- `Controller.main`, PREPARE_PHASE branch: the phase start is the first
clock sample plus the fixed delay 0.1 s; the phase stop is a *second*
clock sample plus duration plus the fixed delay. -/
def Controller.prepare_phase_to_running (t1 t2 duration : ℚ) : ℚ × ℚ :=
  (t1 + 1/10, t2 + duration + 1/10)

end VxPy

namespace VxPy

/-! ## Claim theorems for the supervisor operations -/

/-- A concrete supervisor state in which Io is busy (RUNNING) while
Display is IDLE. -/
def busyIoState : CtrlState :=
  { selfState := PState.IDLE
    cameraState := PState.IDLE
    displayState := PState.IDLE
    ioState := PState.RUNNING
    workerState := PState.IDLE
    recording := { enabled := false, active := false, folder := "", useCompression := false }
    protocolName := ""
    phaseId := none
    phaseStart := none
    phaseStop := none
    warnings := 0 }

/-- Claim C3 (counterexample): with Io busy (RUNNING) but Display IDLE,
`start_protocol` is *not* rejected: no warning is logged and the
supervisor enters PREPARE_PROTOCOL with the protocol identifier set —
and even a rejected call would return `None`, not `False`. -/
theorem C3_counterexample :
    busyIoState.ioState ≠ PState.IDLE
    ∧ (Controller.start_protocol busyIoState "p" "f").1.selfState = PState.PREPARE_PROTOCOL
    ∧ (Controller.start_protocol busyIoState "p" "f").1.protocolName = "p"
    ∧ (Controller.start_protocol busyIoState "p" "f").1.warnings = busyIoState.warnings
    ∧ (Controller.start_protocol busyIoState "p" "f").2 ≠ some false := by
  decide

/-- Claim C3 (amended): `start_protocol` is rejected exactly when the
Display worker is non-IDLE (the states of Camera, Io and Worker are not
part of the gate): then a warning is logged, `None` is returned (not
`False`), and neither the protocol identifier nor the supervisor state
changes.  Otherwise the protocol identifier is set, the supervisor enters
PREPARE_PROTOCOL, and a recording is started when recording is enabled
and not yet active. -/
theorem C3_start_protocol_gate (s : CtrlState) (path newFolder : String) :
    (s.displayState ≠ PState.IDLE →
       Controller.start_protocol s path newFolder =
         ({ s with warnings := s.warnings + 1 }, none))
    ∧ (s.displayState = PState.IDLE →
       (Controller.start_protocol s path newFolder).1.selfState = PState.PREPARE_PROTOCOL
       ∧ (Controller.start_protocol s path newFolder).1.protocolName = path
       ∧ (Controller.start_protocol s path newFolder).2 = none
       ∧ (s.recording.enabled = true → s.recording.active = false →
            (Controller.start_protocol s path newFolder).1.recording.active = true)) := by
  constructor
  · intro hbusy
    simp [Controller.start_protocol, hbusy]
  · intro hidle
    by_cases he : s.recording.enabled
    · by_cases hac : s.recording.active
      · refine ⟨?_, ?_, ?_, ?_⟩ <;>
          simp [Controller.start_protocol, Controller.start_recording, hidle, he, hac]
      · refine ⟨?_, ?_, ?_, ?_⟩ <;>
          simp [Controller.start_protocol, Controller.start_recording, hidle, he, hac]
    · refine ⟨?_, ?_, ?_, ?_⟩ <;>
        simp [Controller.start_protocol, Controller.start_recording, hidle, he]

/-- Claim C3 (witness): the amended theorem applied to the busy-Io state
(accept branch) and to a busy-Display variant (reject branch). -/
theorem C3_start_protocol_gate_witness :
    (Controller.start_protocol busyIoState "p" "f").1.selfState = PState.PREPARE_PROTOCOL
    ∧ Controller.start_protocol { busyIoState with displayState := PState.RUNNING } "p" "f" =
        ({ busyIoState with displayState := PState.RUNNING, warnings := 1 }, none) :=
  ⟨((C3_start_protocol_gate busyIoState "p" "f").2 (by decide)).1,
   (C3_start_protocol_gate { busyIoState with displayState := PState.RUNNING } "p" "f").1
     (by decide)⟩

/-- Claim C5 (counterexample): with the first clock sample 0, the second
clock sample 1 and phase duration 2, the start is `0 + 0.1` as claimed
but the stop is `3.1 ≠ start + duration = 2.1`. -/
theorem C5_counterexample :
    (Controller.prepare_phase_to_running 0 1 2).1 = 0 + 1/10
    ∧ (Controller.prepare_phase_to_running 0 1 2).2 ≠
        (Controller.prepare_phase_to_running 0 1 2).1 + 2 := by
  constructor
  · norm_num [Controller.prepare_phase_to_running]
  · norm_num [Controller.prepare_phase_to_running]

/-- Claim C5 (amended): on the PREPARE_PHASE → RUNNING transition the
phase start is set to `now + δ` with `δ = 0.1 s` as claimed, but the stop
is computed from a *second* clock sample: `stop = now' + duration + δ`,
so `stop - start = duration + (now' - now)`, which equals the duration
exactly when the two clock samples coincide. -/
theorem C5_phase_times (t1 t2 duration : ℚ) :
    (Controller.prepare_phase_to_running t1 t2 duration).1 = t1 + 1/10
    ∧ (Controller.prepare_phase_to_running t1 t2 duration).2 = t2 + duration + 1/10
    ∧ (Controller.prepare_phase_to_running t1 t2 duration).2 -
        (Controller.prepare_phase_to_running t1 t2 duration).1 =
          duration + (t2 - t1) := by
  refine ⟨rfl, rfl, ?_⟩
  simp [Controller.prepare_phase_to_running]
  ring

/-- Claim C10: starting a recording while the recording-enabled flag is
false (and no recording active) returns `True` yet changes nothing but
the warning count: the recording stays inactive, no output folder is set,
and the supervisor state is untouched. -/
theorem C10_start_recording_disabled (s : CtrlState)
    (compressionMethod : Option String) (newFolder : String)
    (hactive : s.recording.active = false)
    (henabled : s.recording.enabled = false) :
    Controller.start_recording s compressionMethod newFolder =
      ({ s with warnings := s.warnings + 1 }, true) := by
  simp [Controller.start_recording, hactive, henabled]

/-- Claim C10 (witness): the disabled-recording call on the concrete idle
state returns `True` and only warns. -/
theorem C10_start_recording_disabled_witness :
    Controller.start_recording busyIoState none "f" =
      ({ busyIoState with warnings := 1 }, true) :=
  C10_start_recording_disabled busyIoState none "f" rfl rfl

/-! ## RPC dispatch (`process/Process.py`, `AbstractProcess._execute_rpc`) -/

/-- Python's `str.split('.')` on the underlying character list. -/
def splitDot : List Char → List (List Char)
  | [] => [[]]
  | c :: rest =>
    if c = '.' then [] :: splitDot rest
    else
      match splitDot rest with
      | [] => [[c]]
      | g :: gs => (c :: g) :: gs

/-- Receiver-side dispatch environment: the worker's dynamic class name,
which attribute names `getattr` resolves, which of those raise when
called, the registered callback table, and which callbacks raise. -/
structure RpcEnv where
  className : String
  classMethods : List String
  methodRaises : List String
  callbacks : List String
  callbackRaises : List String
deriving Repr

/-- Observable outcome of a dispatch that did not propagate an error:
either some target was called, or a warning was logged and the message
discarded (unknown key, `getattr` failure, or a caught callback
exception). -/
inductive RpcOutcome where
  | called (key : String)
  | warned
deriving DecidableEq, Repr

/-- `AbstractProcess._execute_rpc`: split the key on `'.'`; if the first
component equals the class name, take `fun_path[1]` — an uncaught
`IndexError` when there is no second component — and call
`getattr(self, fun_str)` inside try/except (both a missing attribute and
an exception in the call are caught and logged); otherwise resolve the
full key through the callback table inside try/except; otherwise log a
warning.  `.error` marks an exception propagating out of the dispatch. -/
def AbstractProcess.execute_rpc (env : RpcEnv) (fn : String) :
    Except Unit RpcOutcome :=
  let funPath := splitDot fn.data
  if funPath.headD [] = env.className.data then
    match funPath with
    | _ :: funStr :: _ =>
      let fs : String := ⟨funStr⟩
      if fs ∈ env.classMethods then
        if fs ∈ env.methodRaises then .ok .warned else .ok (.called fs)
      else .ok .warned
    | _ => .error ()
  else if fn ∈ env.callbacks then
    if fn ∈ env.callbackRaises then .ok .warned else .ok (.called fn)
  else .ok .warned

/-- A dispatch environment with no methods and no callbacks on a worker of
class `Camera`. -/
def cameraRpcEnv : RpcEnv :=
  { className := "Camera", classMethods := [], methodRaises := []
    callbacks := [], callbackRaises := [] }

/-- Helper: `splitDot` never returns the empty list of groups. -/
theorem splitDot_ne_nil (l : List Char) : splitDot l ≠ [] := by
  cases l with
  | nil => simp [splitDot]
  | cons c rest =>
    unfold splitDot
    by_cases hc : c = '.'
    · simp [hc]
    · simp only [hc, if_false]
      cases splitDot rest <;> simp

/-! ## Worker loop kernel timing (`process/Process.py`, `AbstractProcess.run`,
and the calibration in `Controller.__init__`) -/

/-- Python's `max` over a nonempty list, folded left as the iterative
maximum (the empty case is unreachable). -/
def pyMax : List ℚ → ℚ
  | [] => 0
  | x :: xs => xs.foldl max x

/-- `Controller.__init__`: sample 100 sleeps of the system's finest
granularity (`time.sleep(10 ** -10)`) and keep the maximum observed
duration as the minimum sleep period.  `sample i` is the `i`-th measured
duration. -/
def min_sleep_time (sample : ℕ → ℚ) : ℚ :=
  pyMax ((List.range 100).map sample)

/-- `AbstractProcess.run`: remaining time to the tick deadline. -/
def remaining (t interval now : ℚ) : ℚ := t + interval - now

/-- `AbstractProcess.run`: the idle sleep taken in one tick, if any —
`0.9 * dt` exactly when idle timeout is enabled and `dt` exceeds
`1.2 * min_sleep_time`. -/
def tick_sleep (enableIdleTimeout : Bool) (minSleepTime dt : ℚ) : Option ℚ :=
  if enableIdleTimeout ∧ dt > 12/10 * minSleepTime then some (9/10 * dt)
  else none

/-- `AbstractProcess.run`: the busy-wait loop keeps spinning while the
deadline has not passed (`self.t + interval - time.perf_counter() >= 0`). -/
def busy_wait_continues (t interval now : ℚ) : Bool :=
  decide (0 ≤ remaining t interval now)

/-- Helper: a left fold of `max` starting at `a` lands in `a :: xs`. -/
theorem foldl_max_mem (xs : List ℚ) (a : ℚ) : xs.foldl max a ∈ a :: xs := by
  induction xs generalizing a with
  | nil => simp
  | cons x xs ih =>
    simp only [List.foldl_cons]
    have h := ih (max a x)
    rcases List.mem_cons.mp h with h1 | h1
    · rw [h1]
      rcases max_choice a x with hm | hm <;> rw [hm] <;> simp
    · simp [h1]

/-- Helper: a left fold of `max` starting at `a` bounds every element of
`a :: xs`. -/
theorem foldl_max_le (xs : List ℚ) (a : ℚ) :
    ∀ y ∈ a :: xs, y ≤ xs.foldl max a := by
  induction xs generalizing a with
  | nil => intro y hy; simp at hy; simp [hy]
  | cons x xs ih =>
    intro y hy
    simp only [List.foldl_cons]
    rcases List.mem_cons.mp hy with h1 | h1
    · subst h1
      exact le_trans (le_max_left y x) (ih (max y x) _ (List.mem_cons_self _ _))
    · rcases List.mem_cons.mp h1 with h2 | h2
      · subst h2
        exact le_trans (le_max_right a y) (ih (max a y) _ (List.mem_cons_self _ _))
      · exact ih (max a x) y (List.mem_cons_of_mem _ h2)

/-! ## Static protocol phases (`vxpy/core/protocol.py`) -/

/-- One protocol phase (only the duration matters here). -/
structure Phase where
  duration : ℚ
deriving DecidableEq, Repr

/-- Python list subscription `self._phases[phase_id]` with an integer
index: nonnegative indices address from the front, negative indices from
the back, anything out of range raises `IndexError`. -/
def pyListGet (l : List Phase) (i : ℤ) : Except Unit Phase :=
  let j : ℤ := if i < 0 then i + l.length else i
  if 0 ≤ j then
    match l.get? j.toNat with
    | some x => .ok x
    | none => .error ()
  else .error ()

/-- `StaticPhasicProtocol.get_phase`: `None` when `phase_id` is not below
`phase_count`; otherwise the subscription `self._phases[phase_id]`. -/
def StaticPhasicProtocol.get_phase (phases : List Phase) (phase_id : ℤ) :
    Except Unit (Option Phase) :=
  if phase_id < (phases.length : ℤ) then
    match pyListGet phases phase_id with
    | .ok p => .ok (some p)
    | .error e => .error e
  else .ok none

/-- Helper: Python's `max` of a nonempty list is an element of it. -/
theorem pyMax_mem (l : List ℚ) (h : l ≠ []) : pyMax l ∈ l := by
  cases l with
  | nil => exact absurd rfl h
  | cons x xs => exact foldl_max_mem xs x

/-- Helper: Python's `max` of a nonempty list bounds every element. -/
theorem pyMax_le (l : List ℚ) : ∀ y ∈ l, y ≤ pyMax l := by
  cases l with
  | nil => intro y hy; simp at hy
  | cons x xs => exact foldl_max_le xs x

end VxPy

namespace VxPy

/-! ## Claim theorems: RPC dispatch, tick timing, phase lookup -/

/-- Claim C7 (counterexample): dispatching the key equal to the worker's
bare class name ("Camera", no dot) raises an uncaught `IndexError` at
`fun_path[1]` — the error escapes the dispatch, so the worker does not
continue normally. -/
theorem C7_counterexample :
    AbstractProcess.execute_rpc cameraRpcEnv "Camera" = .error ()
    ∧ "Camera" = cameraRpcEnv.className := ⟨rfl, rfl⟩

/-- Claim C7 (amended): an RPC dispatch propagates an error exactly when
the key splits on `'.'` to the bare class name alone; for every other
key — unknown keys included, and callbacks that raise — the dispatch
completes (the failure is logged as a warning and the message discarded,
so the worker continues normally). -/
theorem C7_rpc_error_iff (env : RpcEnv) (fn : String) :
    AbstractProcess.execute_rpc env fn = .error () ↔
      splitDot fn.data = [env.className.data] := by
  rcases hsp : splitDot fn.data with _ | ⟨h, t⟩
  · exact absurd hsp (splitDot_ne_nil _)
  · rcases t with _ | ⟨f, rest⟩
    · by_cases hh : h = env.className.data
      · subst hh
        simp [AbstractProcess.execute_rpc, hsp]
      · simp only [AbstractProcess.execute_rpc, hsp, List.headD]
        rw [if_neg hh]
        split_ifs <;> simp [hh]
    · by_cases hh : h = env.className.data
      · simp only [AbstractProcess.execute_rpc, hsp, List.headD]
        rw [if_pos hh]
        split_ifs <;> simp
      · simp only [AbstractProcess.execute_rpc, hsp, List.headD]
        rw [if_neg hh]
        split_ifs <;> simp

/-- Claim C8: at supervisor start, the minimum sleep period is the maximum
of exactly the 100 sampled sleep durations; in a worker tick the idle
sleep, when taken, is `0.9 ×` the remaining time to the deadline and is
taken only when that remaining time exceeds `1.2 ×` the minimum sleep
period; and the busy-wait loop afterwards exits exactly when the deadline
has passed. -/
theorem C8_tick_timing (sample : ℕ → ℚ) :
    (((List.range 100).map sample).length = 100
      ∧ min_sleep_time sample ∈ (List.range 100).map sample
      ∧ ∀ x ∈ (List.range 100).map sample, x ≤ min_sleep_time sample)
    ∧ (∀ (e : Bool) (m dt s : ℚ), tick_sleep e m dt = some s →
        s = 9/10 * dt ∧ 12/10 * m < dt)
    ∧ (∀ t interval now : ℚ,
        busy_wait_continues t interval now = false ↔ t + interval < now) := by
  refine ⟨⟨by simp, pyMax_mem _ (by simp), pyMax_le _⟩, ?_, ?_⟩
  · intro e m dt s hsome
    unfold tick_sleep at hsome
    split_ifs at hsome with hcond
    have hs : 9/10 * dt = s := by injection hsome
    exact ⟨hs.symm, hcond.2⟩
  · intro t interval now
    unfold busy_wait_continues remaining
    rw [decide_eq_false_iff_not]
    constructor
    · intro hh
      by_contra hc
      exact hh (by linarith)
    · intro hh hc
      linarith

/-- Claim C8 (witness): with every calibration sample equal to 1, a tick
with remaining time 2 sleeps `0.9 × 2 = 1.8`, and indeed `2 > 1.2 × 1`. -/
theorem C8_tick_timing_witness :
    (9/5 : ℚ) = 9/10 * 2 ∧ (12/10 : ℚ) * 1 < 2 :=
  (C8_tick_timing (fun _ => 1)).2.1 true 1 2 (9/5) (by norm_num [tick_sleep])

/-- Claim C9: for a protocol with at least one phase, `get_phase` returns
`None` exactly when `phase_id ≥ phase_count`; and for every negative
`phase_id` with `-phase_count ≤ phase_id < 0` it does not return `None`
but the phase at position `phase_count + phase_id`, counted from the
end. -/
theorem C9_get_phase (phases : List Phase) (hP : 1 ≤ phases.length) :
    (∀ i : ℤ, StaticPhasicProtocol.get_phase phases i = .ok none ↔
        (phases.length : ℤ) ≤ i)
    ∧ (∀ i : ℤ, -(phases.length : ℤ) ≤ i → i < 0 →
        StaticPhasicProtocol.get_phase phases i =
          .ok (phases.get? (i + phases.length).toNat)
        ∧ (phases.get? (i + phases.length).toNat).isSome = true) := by
  constructor
  · intro i
    constructor
    · intro hok
      by_contra hlt
      push_neg at hlt
      unfold StaticPhasicProtocol.get_phase at hok
      rw [if_pos hlt] at hok
      cases hp : pyListGet phases i with
      | error e => rw [hp] at hok; cases hok
      | ok p => rw [hp] at hok; cases hok
    · intro hge
      unfold StaticPhasicProtocol.get_phase
      rw [if_neg (by omega)]
  · intro i h1 h2
    have hj0 : (0 : ℤ) ≤ i + phases.length := by omega
    have hnat : (i + (phases.length : ℤ)).toNat < phases.length := by omega
    have hsome : phases.get? (i + (phases.length : ℤ)).toNat ≠ none := by
      intro hcon
      rw [List.get?_eq_none] at hcon
      omega
    cases hg : phases.get? (i + (phases.length : ℤ)).toNat with
    | none => exact absurd hg hsome
    | some p =>
      have hge : phases[(i + (phases.length : ℤ)).toNat] = p := by
        rw [List.get?_eq_getElem?, List.getElem?_eq_getElem hnat] at hg
        exact Option.some.inj hg
      have hpy : pyListGet phases i = .ok p := by
        simp [pyListGet, h2, hj0, hg, hge]
      have hilt : i < (phases.length : ℤ) := by omega
      constructor
      · simp [StaticPhasicProtocol.get_phase, hilt, hpy, hg]
      · simp [hg]

/-! ## Protocol phase barrier
(`Controller.main` and `AbstractProcess._run_protocol`) -/

/-- Global protocol snapshot: the supervisor's state cell paired with the
state cells of the participating workers (`_active_protocols`). -/
abbrev Sys := PState × List PState

/-- One atomic transition of the interleaved protocol state machines.
Each constructor pairs one code transition's guard (its `in_state`
checks) with its `set_state`; clock conditions (phase start reached,
phase stop exceeded, another phase left) are nondeterministic, so the
corresponding transitions are always enabled. -/
inductive Step : Sys → Sys → Prop
  | start_protocol (ws) :
      Step (PState.IDLE, ws) (PState.PREPARE_PROTOCOL, ws)
  | prepare_protocol (ws) (h : ∀ w ∈ ws, w = PState.WAIT_FOR_PHASE) :
      Step (PState.PREPARE_PROTOCOL, ws) (PState.PREPARE_PHASE, ws)
  | phase_ready (ws) (h : ∀ w ∈ ws, w = PState.READY) :
      Step (PState.PREPARE_PHASE, ws) (PState.RUNNING, ws)
  | phase_timeout (ws) :
      Step (PState.RUNNING, ws) (PState.PHASE_END, ws)
  | next_phase (ws) :
      Step (PState.PHASE_END, ws) (PState.PREPARE_PHASE, ws)
  | protocol_finished (ws) :
      Step (PState.PHASE_END, ws) (PState.PROTOCOL_END, ws)
  | protocol_idle (ws) (h : ∀ w ∈ ws, w = PState.IDLE) :
      Step (PState.PROTOCOL_END, ws) (PState.IDLE, ws)
  | abort_protocol (c ws) :
      Step (c, ws) (PState.PROTOCOL_END, ws)
  | worker_prepare (ws i) (h : ws.get? i = some PState.IDLE) :
      Step (PState.PREPARE_PROTOCOL, ws)
        (PState.PREPARE_PROTOCOL, ws.set i PState.WAIT_FOR_PHASE)
  | worker_ready (ws i) (h : ws.get? i = some PState.WAIT_FOR_PHASE) :
      Step (PState.PREPARE_PHASE, ws)
        (PState.PREPARE_PHASE, ws.set i PState.READY)
  | worker_run (ws i) (h : ws.get? i = some PState.READY) :
      Step (PState.RUNNING, ws) (PState.RUNNING, ws.set i PState.RUNNING)
  | worker_phase_end (c ws i) (h : ws.get? i = some PState.RUNNING) :
      Step (c, ws) (c, ws.set i PState.PHASE_END)
  | worker_wait_again (ws i) (h : ws.get? i = some PState.PHASE_END) :
      Step (PState.PREPARE_PHASE, ws)
        (PState.PREPARE_PHASE, ws.set i PState.WAIT_FOR_PHASE)
  | worker_idle (ws i) (h : ws.get? i = some PState.PHASE_END) :
      Step (PState.PROTOCOL_END, ws) (PState.PROTOCOL_END, ws.set i PState.IDLE)

/-- Reachability from the post-startup snapshot: supervisor IDLE and all
`n` participating workers IDLE. -/
def Reachable (n : ℕ) (s : Sys) : Prop :=
  Relation.ReflTransGen Step (PState.IDLE, List.replicate n PState.IDLE) s

/-- A worker state that witnesses having reached READY in the current
phase: READY itself, or one of the states only reachable from it before
the next phase setup. -/
def readyish (w : PState) : Prop :=
  w = PState.READY ∨ w = PState.RUNNING ∨ w = PState.PHASE_END

/-- Helper (invariant): whenever the supervisor is RUNNING, every
participating worker is READY, RUNNING or PHASE_END — each of which means
the worker reached READY for the current phase. -/
theorem running_all_readyish (n : ℕ) (s : Sys) (h : Reachable n s) :
    s.1 = PState.RUNNING → ∀ w ∈ s.2, readyish w := by
  induction h with
  | refl => intro hc; exact absurd hc (by simp)
  | tail hab hstep ih =>
    cases hstep with
    | start_protocol ws => intro hc; exact absurd hc (by simp)
    | prepare_protocol ws h => intro hc; exact absurd hc (by simp)
    | phase_ready ws h =>
      intro _ w hw
      exact Or.inl (h w hw)
    | phase_timeout ws => intro hc; exact absurd hc (by simp)
    | next_phase ws => intro hc; exact absurd hc (by simp)
    | protocol_finished ws => intro hc; exact absurd hc (by simp)
    | protocol_idle ws h => intro hc; exact absurd hc (by simp)
    | abort_protocol c ws => intro hc; exact absurd hc (by simp)
    | worker_prepare ws i h => intro hc; exact absurd hc (by simp)
    | worker_ready ws i h => intro hc; exact absurd hc (by simp)
    | worker_run ws i h =>
      intro _ w hw
      rcases List.mem_or_eq_of_mem_set hw with hw' | rfl
      · exact ih rfl w hw'
      · exact Or.inr (Or.inl rfl)
    | worker_phase_end c ws i h =>
      intro hc w hw
      rcases List.mem_or_eq_of_mem_set hw with hw' | rfl
      · exact ih hc w hw'
      · exact Or.inr (Or.inr rfl)
    | worker_wait_again ws i h => intro hc; exact absurd hc (by simp)
    | worker_idle ws i h => intro hc; exact absurd hc (by simp)

/-- Claim C6: in every reachable execution, (a) at the instant any
participating worker enters RUNNING the supervisor is already RUNNING
and every participating worker has reached READY for the current phase
(is READY, RUNNING or PHASE_END), and (b) the supervisor moves from
PREPARE_PHASE to RUNNING only when every participating worker is READY. -/
theorem C6_phase_barrier (n : ℕ) (s s' : Sys) (hre : Reachable n s)
    (hstep : Step s s') :
    (∀ i : ℕ, s.2.get? i ≠ some PState.RUNNING →
        s'.2.get? i = some PState.RUNNING →
        s.1 = PState.RUNNING ∧ ∀ w ∈ s.2, readyish w)
    ∧ (s.1 = PState.PREPARE_PHASE → s'.1 = PState.RUNNING →
        ∀ w ∈ s.2, w = PState.READY) := by
  constructor
  · intro i hnot hyes
    cases hstep with
    | start_protocol ws => exact absurd hyes hnot
    | prepare_protocol ws h => exact absurd hyes hnot
    | phase_ready ws h => exact absurd hyes hnot
    | phase_timeout ws => exact absurd hyes hnot
    | next_phase ws => exact absurd hyes hnot
    | protocol_finished ws => exact absurd hyes hnot
    | protocol_idle ws h => exact absurd hyes hnot
    | abort_protocol c ws => exact absurd hyes hnot
    | worker_prepare ws j h =>
      rw [List.get?_set] at hyes
      by_cases hji : j = i
      · rw [if_pos hji] at hyes
        cases hg : ws.get? i <;> rw [hg] at hyes <;> simp at hyes
      · rw [if_neg hji] at hyes
        exact absurd hyes hnot
    | worker_ready ws j h =>
      rw [List.get?_set] at hyes
      by_cases hji : j = i
      · rw [if_pos hji] at hyes
        cases hg : ws.get? i <;> rw [hg] at hyes <;> simp at hyes
      · rw [if_neg hji] at hyes
        exact absurd hyes hnot
    | worker_run ws j h =>
      exact ⟨rfl, running_all_readyish n _ hre rfl⟩
    | worker_phase_end c ws j h =>
      rw [List.get?_set] at hyes
      by_cases hji : j = i
      · rw [if_pos hji] at hyes
        cases hg : ws.get? i <;> rw [hg] at hyes <;> simp at hyes
      · rw [if_neg hji] at hyes
        exact absurd hyes hnot
    | worker_wait_again ws j h =>
      rw [List.get?_set] at hyes
      by_cases hji : j = i
      · rw [if_pos hji] at hyes
        cases hg : ws.get? i <;> rw [hg] at hyes <;> simp at hyes
      · rw [if_neg hji] at hyes
        exact absurd hyes hnot
    | worker_idle ws j h =>
      rw [List.get?_set] at hyes
      by_cases hji : j = i
      · rw [if_pos hji] at hyes
        cases hg : ws.get? i <;> rw [hg] at hyes <;> simp at hyes
      · rw [if_neg hji] at hyes
        exact absurd hyes hnot
  · intro hpp hrun
    cases hstep with
    | phase_ready ws h => exact h
    | prepare_protocol ws h => exact absurd hrun (by simp)
    | worker_ready ws i h => exact absurd hrun (by simp)
    | worker_wait_again ws i h => exact absurd hrun (by simp)
    | abort_protocol c ws => exact absurd hrun (by simp)
    | worker_phase_end c ws i h =>
      rw [show c = PState.PREPARE_PHASE from hpp] at hrun
      exact absurd hrun (by simp)
    | start_protocol ws => exact absurd hpp (by simp)
    | phase_timeout ws => exact absurd hpp (by simp)
    | next_phase ws => exact absurd hpp (by simp)
    | protocol_finished ws => exact absurd hpp (by simp)
    | protocol_idle ws h => exact absurd hpp (by simp)
    | worker_prepare ws i h => exact absurd hpp (by simp)
    | worker_run ws i h => exact absurd hpp (by simp)
    | worker_idle ws i h => exact absurd hpp (by simp)

/-- Claim C6 (witness): a concrete five-step execution with one
participating worker, at the step where the worker enters RUNNING. -/
theorem C6_phase_barrier_witness :
    (PState.RUNNING, [PState.READY]).1 = PState.RUNNING
    ∧ ∀ w ∈ (PState.RUNNING, [PState.READY]).2, readyish w := by
  have hre : Reachable 1 (PState.RUNNING, [PState.READY]) := by
    unfold Reachable
    have h0 : List.replicate 1 PState.IDLE = [PState.IDLE] := rfl
    rw [h0]
    exact Relation.ReflTransGen.tail
      (Relation.ReflTransGen.tail
        (Relation.ReflTransGen.tail
          (Relation.ReflTransGen.tail
            (Relation.ReflTransGen.single (Step.start_protocol [PState.IDLE]))
            (Step.worker_prepare [PState.IDLE] 0 rfl))
          (Step.prepare_protocol [PState.WAIT_FOR_PHASE] (by intro w hw; simpa using hw)))
        (Step.worker_ready [PState.WAIT_FOR_PHASE] 0 rfl))
      (Step.phase_ready [PState.READY] (by intro w hw; simpa using hw))
  exact (C6_phase_barrier 1 (PState.RUNNING, [PState.READY])
      (PState.RUNNING, [PState.RUNNING]) hre
      (Step.worker_run [PState.READY] 0 rfl)).1 0 (by decide) (by decide)

/-- Claim C9 (witness): on a two-phase protocol, `get_phase 5` is `None`
and `get_phase (-1)` is the last phase. -/
theorem C9_get_phase_witness :
    StaticPhasicProtocol.get_phase [⟨1⟩, ⟨2⟩] 5 = .ok none
    ∧ StaticPhasicProtocol.get_phase [⟨1⟩, ⟨2⟩] (-1) = .ok (some ⟨2⟩) := by
  have h := C9_get_phase [⟨1⟩, ⟨2⟩] (by norm_num)
  refine ⟨(h.1 5).mpr (by norm_num), ?_⟩
  have h2 := (h.2 (-1) (by norm_num) (by norm_num)).1
  simpa using h2

end VxPy
